import Mathlib

/-
Shallow embedding of the discrete-event physics core of the
A-Priori-Physics-System repository (src/src).

Modelling conventions:
* Python floats are modelled as exact rationals (ℚ).  `math.sqrt` is
  modelled by `Rat.sqrt`, which agrees with the real square root on
  perfect squares of rationals (every use in a proof below is on a
  perfect square or in a branch whose value is irrelevant).
* Python exceptions are modelled with `Except`; functions that cannot
  raise are total.
* Mutation is modelled by explicit state passing: a setter returns the
  updated record.
-/

namespace APhys

/-- EPSILON from src/src/util/__init__.py (`EPSILON = 1e-8`). -/
def EPSILON : ℚ := 1 / 100000000

/-- Vector from src/src/util/vector.py: an immutable 2d pair. -/
structure Vector where
  x : ℚ
  y : ℚ
deriving DecidableEq

/-- Vector.__add__ (element-wise). -/
def Vector.add (v w : Vector) : Vector := ⟨v.x + w.x, v.y + w.y⟩

/-- Vector.__sub__ (element-wise). -/
def Vector.sub (v w : Vector) : Vector := ⟨v.x - w.x, v.y - w.y⟩

/-- Vector.__neg__. -/
def Vector.negate (v : Vector) : Vector := ⟨-v.x, -v.y⟩

/-- Vector.__mul__ with a scalar argument. -/
def Vector.smul (c : ℚ) (v : Vector) : Vector := ⟨v.x * c, v.y * c⟩

/-- Vector.__mul__ with an iterable argument: the dot product. -/
def Vector.dot (v w : Vector) : ℚ := v.x * w.x + v.y * w.y

/-- Vector.cross: `self.x * vec[1] - self.y * vec[0]`. -/
def Vector.cross (v w : Vector) : ℚ := v.x * w.y - v.y * w.x

instance : Add Vector := ⟨Vector.add⟩
instance : Sub Vector := ⟨Vector.sub⟩
instance : Neg Vector := ⟨Vector.negate⟩
instance : HMul ℚ Vector Vector := ⟨fun c v => Vector.smul c v⟩
instance : HMul Vector ℚ Vector := ⟨fun v c => Vector.smul c v⟩
instance : HMul Vector Vector ℚ := ⟨Vector.dot⟩

/-- Position from src/src/util/__init__.py:
`position + velocity * delta_time + acceleration * (.5 * delta_time ** 2)`. -/
def Position (position velocity acceleration : Vector) (delta_time : ℚ) : Vector :=
  position + velocity * delta_time + acceleration * (1/2 * delta_time ^ 2)

/-- FloatEqual from src/src/util/__init__.py (relative-epsilon equality). -/
def FloatEqual (a b : ℚ) : Bool :=
  let largest := max |a| |b|
  let diff := EPSILON * largest
  if largest < EPSILON then decide (-EPSILON < a - b ∧ a - b < EPSILON)
  else decide (-diff < a - b ∧ a - b < diff)

/-- Within from src/src/util/__init__.py:
`a <= b <= c or c <= b <= a or FloatEqual(a, b) or FloatEqual(b, c)`. -/
def Within (a b c : ℚ) : Bool :=
  decide (a ≤ b ∧ b ≤ c) || decide (c ≤ b ∧ b ≤ a) || FloatEqual a b || FloatEqual b c

/-- Collinear from src/src/util/__init__.py. -/
def Collinear (p q r : Vector) : Bool :=
  FloatEqual ((q - p).cross (r - p)) 0

/-- SegmentContainsPoint from src/src/util/__init__.py. -/
def SegmentContainsPoint (a b c : Vector) : Bool :=
  Collinear a b c &&
    (if !(FloatEqual a.x b.x) then Within a.x c.x b.x else Within a.y c.y b.y)

/-- The two failure modes of find_roots (classes EquationIdentity and
InequalityError in src/src/util/__init__.py). -/
inductive RootsError where
  | equationIdentity
  | inequalityError
deriving DecidableEq

instance {ε α : Type} [DecidableEq ε] [DecidableEq α] : DecidableEq (Except ε α) := fun x y =>
  match x, y with
  | .ok a, .ok b =>
    if h : a = b then .isTrue (by rw [h]) else .isFalse (fun hc => h (Except.ok.inj hc))
  | .error a, .error b =>
    if h : a = b then .isTrue (by rw [h]) else .isFalse (fun hc => h (Except.error.inj hc))
  | .ok _, .error _ => .isFalse (fun hc => Except.noConfusion hc)
  | .error _, .ok _ => .isFalse (fun hc => Except.noConfusion hc)

/-- Model of `math.copysign a b` on rationals: the magnitude of `a` with the
sign of `b`.  Python gives `+|a|` for `b = +0.0`; ℚ has a single zero, which
is the case realised by every call site below. -/
def copysign (a b : ℚ) : ℚ := if b < 0 then -|a| else |a|

/-- find_roots from src/src/util/__init__.py.  `math.sqrt` is modelled by
`Rat.sqrt` (exact on perfect squares).  The source's flag
`tmp = not (c == 0)` is inlined as the condition `c ≠ 0`, and its early
`return [0]` is the `none` arm of the `Option` match. -/
def find_roots (a b c : ℚ) : Except RootsError (List ℚ) :=
  if a = 0 then
    if b = 0 then
      if c = 0 then .error .equationIdentity
      else .error .inequalityError
    else .ok [-c / b]
  else
    match (if c ≠ 0 then some (b * b - 4 * a * c)
           else if b = 0 then none else some |b|) with
    | none => .ok [0]
    | some discriminant =>
      if discriminant < 0 then .ok []
      else if c ≠ 0 then
        if discriminant = 0 then .ok [-b / (2 * a)]
        else
          let x1 := (-b - copysign (Rat.sqrt discriminant) b) / (2 * a)
          let x2 := c / (a * x1)
          .ok [x1, x2]
      else
        if discriminant = 0 then .ok [-b / (2 * a)]
        else .ok [-b / a, 0]

/-- Line from src/src/util/line.py: two endpoints (plus a color attribute
set in `__init__`; it plays no role in the physics and is omitted). -/
structure Line where
  p : Vector
  q : Vector
deriving DecidableEq

/-- Line.direction: `q - p`. -/
def Line.direction (l : Line) : Vector := l.q - l.p

/-- Line.__contains__ for a Vector argument. -/
def Line.containsPoint (l : Line) (c : Vector) : Bool :=
  SegmentContainsPoint l.p l.q c

/-- The attribute names defined by class Line in src/src/util/line.py: the
instance attributes set in `__init__` and the methods/properties of the
class body (dunder methods aside).  Python attribute access succeeds
exactly on these names. -/
def Line.attributeNames : List String :=
  ["p", "q", "color", "collinear", "direction", "length", "y_intercept", "slope"]

/-- Python `hasattr` on a Line object. -/
def Line.hasattr (name : String) : Bool :=
  Line.attributeNames.contains name

/-- Shape from src/src/util/shape.py: a list of points and an enclosed
flag. -/
structure Shape where
  points : List Vector
  enclosed : Bool
deriving DecidableEq

/-- Python negative-index list access (`points[i-1]` with `i = 0` wraps to
the last element).  Out-of-range access (an IndexError in Python) never
occurs at the call sites below; it is given the default `(0, 0)`. -/
def pyIdx (l : List Vector) (i : ℤ) : Vector :=
  if i < 0 then l.getD (l.length - (-i).toNat) ⟨0, 0⟩ else l.getD i.toNat ⟨0, 0⟩

/-- List access for lines (non-negative indices only at all call sites). -/
def pyIdxLine (l : List Line) (i : ℕ) : Line :=
  l.getD i ⟨⟨0, 0⟩, ⟨0, 0⟩⟩

/-- Shape.lines:
`[Line(self.points[i-1], self.points[i]) for i in range((1-int(self.enclosed)), len(self.points))]`. -/
def Shape.lines (s : Shape) : List Line :=
  ((List.range s.points.length).drop (1 - (if s.enclosed then 1 else 0))).map
    (fun i => Line.mk (pyIdx s.points ((i : ℤ) - 1)) (pyIdx s.points (i : ℤ)))

/-- The copying Shape constructor `Shape(shape)` (first branch of
`Shape.__init__`): copies every point and keeps the enclosed flag. -/
def Shape.copy (s : Shape) : Shape :=
  ⟨s.points.map (fun p => Vector.mk p.x p.y), s.enclosed⟩

/-- Shape.offset from src/src/util/shape.py:

```
for point in self.points:
    point += offset
```

`Vector.__iadd__` is aliased to `__add__`, which returns a fresh Vector
(Vector is immutable), so `point += offset` only rebinds the loop
variable; `self.points` is never modified.  The method is a no-op. -/
def Shape.offset (s : Shape) (off : Vector) : Shape :=
  let _ := s.points.map (fun point => point + off)
  s

/-- The game-time provider visible to entities and events
(`self.provider.game_time` in the source). -/
structure Provider where
  game_time : ℚ
deriving DecidableEq

/-- An entity as used by the physics core (src/src/entity.py): either a
static Collidable (`mobile = false`, whose `velocity`/`acceleration`
properties return `Vector()`) or a Projectile mixing in Movable
(`mobile = true`).  Fields `_position`, `_velocity`, `_acceleration`,
`_valid_time` are Movable's stored bases; for a static entity
`_position` is the plain `position` attribute of Entity and the other
three are unused. -/
structure Entity where
  mobile : Bool
  base_position : Vector
  base_velocity : Vector
  base_acceleration : Vector
  valid_time : ℚ
  shape : Shape
  restitution : ℚ
deriving DecidableEq

/-- Movable.position property (Collidable entities return the stored
position attribute). -/
def Entity.position (pr : Provider) (e : Entity) : Vector :=
  if e.mobile then
    Position e.base_position e.base_velocity e.base_acceleration
      (pr.game_time - e.valid_time)
  else e.base_position

/-- Movable.velocity property
(`self._velocity + (game_time - self._valid_time) * self.acceleration`);
Collidable.velocity returns `Vector()`. -/
def Entity.velocity (pr : Provider) (e : Entity) : Vector :=
  if e.mobile then
    e.base_velocity + (pr.game_time - e.valid_time) * e.base_acceleration
  else ⟨0, 0⟩

/-- Movable.acceleration property (`self._acceleration`);
Collidable.acceleration returns `Vector()`. -/
def Entity.acceleration (e : Entity) : Vector :=
  if e.mobile then e.base_acceleration else ⟨0, 0⟩

/-- Shaped.pos_shape from src/src/entity.py:
`Shape(self.shape)` followed by `offset(self.position)` (memoisation by
game-time stamp caches the same value and is dropped). -/
def Entity.pos_shape (pr : Provider) (e : Entity) : Shape :=
  (Shape.copy e.shape).offset (e.position pr)

/-- Movable.position setter: stores the new base and stamps the validity
time with the current game time. -/
def Entity.setPosition (pr : Provider) (e : Entity) (p : Vector) : Entity :=
  { e with base_position := p, valid_time := pr.game_time }

/-- Movable.velocity setter: `self.position = self.position` (rebasing the
stored position to the current effective position and stamping the
validity time), then stores the new velocity. -/
def Entity.setVelocity (pr : Provider) (e : Entity) (v : Vector) : Entity :=
  let e1 := e.setPosition pr (e.position pr)
  { e1 with base_velocity := v }

/-- Movable.acceleration setter: stores the new acceleration directly;
no rebasing, no validity-time stamp. -/
def Entity.setAcceleration (_pr : Provider) (e : Entity) (a : Vector) : Entity :=
  { e with base_acceleration := a }

/-- RESTING_THRESHOLD from src/src/physics.py (`200` ms). -/
def RESTING_THRESHOLD : ℚ := 200

/-- check_resting_state from src/src/physics.py (the `line_index`
parameter is unused by the source body too). -/
def check_resting_state (pr : Provider) (ent oth : Entity) (_line_index : ℕ)
    (normal : Vector) (bounciness : ℚ) : Bool :=
  let rel_vel := ent.velocity pr - oth.velocity pr
  let rel_acc := ent.acceleration - oth.acceleration
  let rel_vel_norm : ℚ := rel_vel * normal
  let rel_acc_norm : ℚ := rel_acc * normal
  let case_1_satisfied :=
    if rel_acc_norm ≠ 0 then
      let delta_bounce_time := 2 * (rel_vel_norm * bounciness) / rel_acc_norm
      decide (rel_acc_norm < 0) && decide (delta_bounce_time < RESTING_THRESHOLD)
    else false
  let case_2_satisfied :=
    FloatEqual (rel_acc * normal) 0 && FloatEqual (rel_vel * normal) 0
  case_1_satisfied || case_2_satisfied

/-- Intersection from src/src/physics.py (the event data; the lazily
computed properties are separate functions below). -/
structure Intersection where
  time : ℚ
  del_time : ℚ
  point_index : ℕ
  line_index : ℕ
  ent : Entity
  oth : Entity
  invalid : Bool
deriving DecidableEq

instance : Inhabited Vector := ⟨⟨0, 0⟩⟩

instance : Inhabited Entity := ⟨⟨false, default, default, default, 0, ⟨[], true⟩, 0⟩⟩

instance : Inhabited Intersection := ⟨⟨0, 0, 0, 0, default, default, false⟩⟩

/-- Intersection.__init__ on the `del_time is None` path taken by the
predictor: `self.del_time = self.time; self.time += provider.game_time`. -/
def Intersection.mkNew (pr : Provider) (point_index line_index : ℕ)
    (ent oth : Entity) (time : ℚ) : Intersection :=
  { time := time + pr.game_time, del_time := time,
    point_index := point_index, line_index := line_index,
    ent := ent, oth := oth, invalid := false }

/-- Intersection.line property:
`self.oth.pos_shape.lines[self.line_index]`. -/
def Intersection.line (pr : Provider) (i : Intersection) : Line :=
  pyIdxLine (i.oth.pos_shape pr).lines i.line_index

/-- Intersection.pos property:
`Position(self.ent.pos_shape.points[self.point_index], self.ent.velocity - self.oth.velocity, self.ent.acceleration - self.oth.acceleration, self.time - self.provider.game_time)`. -/
def Intersection.pos (pr : Provider) (i : Intersection) : Vector :=
  Position (pyIdx (i.ent.pos_shape pr).points (i.point_index : ℤ))
    (i.ent.velocity pr - i.oth.velocity pr)
    (i.ent.acceleration - i.oth.acceleration)
    (i.time - pr.game_time)

/-- ParabolaLineCollision from src/src/physics.py.  The two `find_roots`
exception handlers are the `Except` match: InequalityError gives no
roots, EquationIdentity gives the single root 0. -/
def ParabolaLineCollision (pr : Provider) (point_index : ℕ)
    (velocity acceleration : Vector) (line_index : ℕ)
    (ent oth : Entity) : List Intersection :=
  let pos := pyIdx (ent.pos_shape pr).points (point_index : ℤ)
  let line := pyIdxLine (oth.pos_shape pr).lines line_index
  let p := line.p
  let q := line.q
  let roots : List ℚ :=
    if acceleration = ⟨0, 0⟩ then
      if velocity = ⟨0, 0⟩ then []
      else
        let b := velocity.cross q - velocity.cross p
        let c := pos.cross q - pos.cross p - p.cross q
        if b = 0 then [] else [-c / b]
    else
      let a := 1/2 * (acceleration.cross q - acceleration.cross p)
      let b := velocity.cross q - velocity.cross p
      let c := pos.cross q - pos.cross p - p.cross q
      match find_roots a b c with
      | .ok rs => rs
      | .error .inequalityError => []
      | .error .equationIdentity => [0]
  roots.map (fun t => Intersection.mkNew pr point_index line_index ent oth t)

/-- ParabolaLineSegmentCollision from src/src/physics.py: keeps the
intersections whose position lies in the segment (`i.pos in i.line`). -/
def ParabolaLineSegmentCollision (pr : Provider) (point_index : ℕ)
    (vel acc : Vector) (line_index : ℕ) (ent oth : Entity) : List Intersection :=
  (ParabolaLineCollision pr point_index vel acc line_index ent oth).filter
    (fun i => (i.line pr).containsPoint (i.pos pr))

/-- _parabola_line_collision_wrapper from src/src/physics.py: drops
intersections with `del_time ≤ -EPSILON`. -/
def parabola_line_collision_wrapper (pr : Provider) (point_index : ℕ)
    (vel acc : Vector) (line_index : ℕ) (ent oth : Entity) : List Intersection :=
  (ParabolaLineSegmentCollision pr point_index vel acc line_index ent oth).filter
    (fun i => decide (i.del_time > -EPSILON))

/-- entity_intersections from src/src/physics.py: every (point of ent,
line of oth) pair with the relative velocity/acceleration v12/a12, then
every (point of oth, line of ent) pair with the negated v21/a21 and the
roles swapped. -/
def entity_intersections (pr : Provider) (ent oth : Entity) : List Intersection :=
  let v12 := ent.velocity pr - oth.velocity pr
  let v21 := -v12
  let a12 := ent.acceleration - oth.acceleration
  let a21 := -a12
  let args1 := (List.range (ent.pos_shape pr).points.length).product
    (List.range (oth.pos_shape pr).lines.length)
  let args2 := (List.range (oth.pos_shape pr).points.length).product
    (List.range (ent.pos_shape pr).lines.length)
  (args1.map (fun pl => parabola_line_collision_wrapper pr pl.1 v12 a12 pl.2 ent oth)
    ++ args2.map (fun pl => parabola_line_collision_wrapper pr pl.1 v21 a21 pl.2 oth ent)).flatten

/-- Collidable.invalidate_intersections from src/src/entity.py, over an
explicit store of shared Intersection events (Python back-references are
modelled as indices into the store):

```
for intersection in self.intersections:
    intersection.invalid = True
self.intersections = [i for i in self.intersections if not i.invalid]
```

The for-loop sets `invalid = True` on every referenced event. -/
def flagLoop (refs : List ℕ) : ℕ → List Intersection → List Intersection
  | _, [] => []
  | idx, i :: rest =>
    (if idx ∈ refs then { i with invalid := true } else i) :: flagLoop refs (idx + 1) rest

/-- Collidable.invalidate_intersections: flags every event in the
entity's back-reference list, then rebuilds the list from the events
that are still valid.  Returns the updated store and the entity's new
back-reference list; the event queue (which holds its own references
into the store) is untouched. -/
def invalidate_intersections (store : List Intersection) (refs : List ℕ) :
    List Intersection × List ℕ :=
  let flagged := flagLoop refs 0 store
  let kept := refs.filter (fun idx => !(flagged.getD idx default).invalid)
  (flagged, kept)

/-- IEEE-style extended value used by the scheduler arithmetic of
src/src/game.py: Python floats there take the values `float("inf")`
(the empty-queue sentinel and the result of ZeroDivide), `float("nan")`,
or finite numbers. -/
inductive XQ where
  | fin (q : ℚ)
  | inf
  | ninf
  | nan
deriving DecidableEq

/-- Subtraction of a finite value from an extended value. -/
def XQ.subQ (a : XQ) (b : ℚ) : XQ :=
  match a with
  | .fin q => .fin (q - b)
  | .inf => .inf
  | .ninf => .ninf
  | .nan => .nan

/-- Addition of a finite value (IEEE semantics). -/
def XQ.addQ (a : XQ) (b : ℚ) : XQ :=
  match a with
  | .fin q => .fin (q + b)
  | .inf => .inf
  | .ninf => .ninf
  | .nan => .nan

/-- Absolute value (IEEE semantics). -/
def XQ.abs (a : XQ) : XQ :=
  match a with
  | .fin q => .fin |q|
  | .inf => .inf
  | .ninf => .inf
  | .nan => .nan

/-- Comparison `a < b` against a finite bound (false for NaN). -/
def XQ.ltQ (a : XQ) (b : ℚ) : Bool :=
  match a with
  | .fin q => decide (q < b)
  | .inf => false
  | .ninf => true
  | .nan => false

/-- Comparison `a > b` against a finite bound (false for NaN). -/
def XQ.gtQ (a : XQ) (b : ℚ) : Bool :=
  match a with
  | .fin q => decide (q > b)
  | .inf => true
  | .ninf => false
  | .nan => false

/-- Comparison between two extended values (false whenever NaN is
involved). -/
def XQ.ltX (a b : XQ) : Bool :=
  match a, b with
  | .nan, _ => false
  | _, .nan => false
  | .fin q, .fin r => decide (q < r)
  | .fin _, .inf => true
  | .fin _, .ninf => false
  | .inf, _ => false
  | .ninf, .ninf => false
  | .ninf, _ => true

/-- NaN test. -/
def XQ.isNan (a : XQ) : Bool :=
  match a with
  | .nan => true
  | _ => false

/-- ZeroDivide from src/src/util/__init__.py lifted to the extended
values produced by the scheduler (`copysign(INFINITY, a)` for a nonzero
numerator over zero, NaN for 0/0). -/
def ZeroDivideX (a : XQ) (b : ℚ) : XQ :=
  match a with
  | .nan => .nan
  | .inf => if b < 0 then .ninf else .inf
  | .ninf => if b < 0 then .inf else .ninf
  | .fin q =>
    if b = 0 then
      if q = 0 then .nan else if q > 0 then .inf else .ninf
    else .fin (q / b)

/-- A game-time event as seen by the scheduler (a time and the
invalidation flag; the handler payload is abstracted by the handler
parameters of `calcStep`). -/
structure GEvent where
  time : ℚ
  invalid : Bool
deriving DecidableEq

/-- A real-time event as seen by the scheduler. -/
structure REvent where
  time : ℚ
  invalid : Bool
deriving DecidableEq

/-- The scheduler state of class _Game in src/src/game.py.  `speed0`
models `_speed`, `real_speed` models `_real_speed` (None when the game
is not paused), `current_time` is real time, `next_frame_time` models
`_next_frame_time`. -/
structure Game where
  speed0 : ℚ
  real_speed : Option ℚ
  game_time : ℚ
  current_time : ℚ
  next_frame_time : ℚ
  game_events : List GEvent
  real_events : List REvent
deriving DecidableEq

/-- _Game.paused getter: `self._real_speed is not None`. -/
def Game.paused (g : Game) : Bool :=
  g.real_speed.isSome

/-- _Game.speed getter: the stored speed when running, the saved speed
when paused. -/
def Game.speed (g : Game) : ℚ :=
  match g.real_speed with
  | none => g.speed0
  | some s => s

/-- _Game.speed setter: stores the value with no validation of any kind
(the source has no InvalidSpeedError and never raises here). -/
def Game.speedSet (g : Game) (v : ℚ) : Game :=
  if !g.paused then { g with speed0 := v } else { g with real_speed := some v }

/-- _Game.paused setter: saves/restores `_speed` through `_real_speed`;
a no-op when already in the requested state.  The `none` fallback of the
unpause branch is unreachable (the guard guarantees `_real_speed` is not
None there). -/
def Game.pausedSet (g : Game) (pause : Bool) : Game :=
  if g.paused = pause then g
  else if pause then { g with real_speed := some g.speed0, speed0 := 0 }
  else
    match g.real_speed with
    | some s => { g with speed0 := s, real_speed := none }
    | none => g

/-- The projected real time of a game-time event (GameEvent.real_time in
src/src/event.py): `real_time + ZeroDivide(self.time - game_time, _speed)`. -/
def Game.projRealTime (g : Game) (e : GEvent) : XQ :=
  (ZeroDivideX (.fin (e.time - g.game_time)) g.speed0).addQ g.current_time

/-- The outcome of _Game._next_event: the head of the game queue, the
head of the real queue, or nothing due within the frame. -/
inductive NextEv where
  | game (e : GEvent)
  | real (e : REvent)
deriving DecidableEq

/-- _Game._next_event from src/src/game.py.  An empty queue is realised
in the source by a dummy event with time INFINITY; here the sentinel is
`XQ.inf` directly.  The two `raise Exception` validity checks are the
error results.  In the corner case where the comparisons select the
dummy event itself (possible only with an empty game queue and a
negative `_speed`), the source returns an object that matches neither
queue head and `_calc_next_frame` raises; this is also an error
result. -/
def Game.next_event (g : Game) (frame_delta : ℚ) : Except String (Option NextEv) :=
  let gtime : XQ := match g.game_events.head? with
    | some e => .fin e.time
    | none => .inf
  let rtime : XQ := match g.real_events.head? with
    | some e => .fin e.time
    | none => .inf
  let game_delta_time := gtime.subQ g.game_time
  let real_delta_time := rtime.subQ g.current_time
  if gtime.ltQ (g.game_time - EPSILON) then
    .error "Event must occur at a future time"
  else if rtime.ltQ g.current_time then
    .error "Event must occur at a future time"
  else
    let gdt := ZeroDivideX game_delta_time.abs g.speed0
    if gdt.gtQ frame_delta || gdt.isNan then
      if real_delta_time.gtQ frame_delta then .ok none
      else
        match g.real_events.head? with
        | some e => .ok (some (.real e))
        | none => .error "dummy event selected"
    else
      if real_delta_time.gtQ frame_delta then
        match g.game_events.head? with
        | some e => .ok (some (.game e))
        | none => .error "dummy event selected"
      else if gdt.ltX real_delta_time then
        match g.game_events.head? with
        | some e => .ok (some (.game e))
        | none => .error "dummy event selected"
      else
        match g.real_events.head? with
        | some e => .ok (some (.real e))
        | none => .error "dummy event selected"

/-- One iteration of the while loop of _Game._calc_next_frame from
src/src/game.py.  `handleG`/`handleR` are the event handlers (`ev()`;
their returned event lists are discarded by this revision of the source)
and `update` is the input poll `event.update(...)` executed after every
handled event.  `update` is modelled from the spec: the event module of
the source revision exports `check_for_new_events` rather than `update`;
per the spec it polls the input snapshot and merges KeyPress/KeyRelease
real-time events.  `list.remove(ev)` removes the first event comparing
equal to `ev` (GameEvent/RealEvent compare by time) and raises
ValueError when none matches; division by a zero `_speed` raises
ZeroDivisionError; both are error results. -/
def Game.calcStep (handleG : GEvent → Game → Game) (handleR : REvent → Game → Game)
    (update : Game → Game) (g : Game) : Except String Game :=
  if g.current_time < g.next_frame_time then
    match g.next_event (g.next_frame_time - g.current_time) with
    | .error e => .error e
    | .ok (some (.game ev)) =>
      if g.speed0 = 0 then .error "ZeroDivisionError"
      else
        let delta_time := (ev.time - g.game_time) / g.speed0
        let g1 := { g with game_time := g.game_time + delta_time * g.speed0,
                           current_time := g.current_time + delta_time }
        let g2 := handleG ev g1
        if g2.game_events.any (fun x => x.time = ev.time) then
          .ok (update { g2 with
            game_events := g2.game_events.eraseP (fun x => decide (x.time = ev.time)) })
        else .error "ValueError"
    | .ok (some (.real ev)) =>
      let delta_time := ev.time - g.current_time
      let g1 := { g with game_time := g.game_time + delta_time * g.speed0,
                         current_time := g.current_time + delta_time }
      let g2 := handleR ev g1
      if g2.real_events.any (fun x => x.time = ev.time) then
        .ok (update { g2 with
          real_events := g2.real_events.eraseP (fun x => decide (x.time = ev.time)) })
      else .error "ValueError"
    | .ok none =>
      .ok (update { g with
        game_time := g.game_time + (g.next_frame_time - g.current_time) * g.speed0,
        current_time := g.next_frame_time })
  else .ok g

/-- A provider at game time 0. -/
def pr0 : Provider := ⟨0⟩

/-- A provider at game time 1 (used to observe stale-base effects). -/
def pr1 : Provider := ⟨1⟩

/-- A falling point body: one shape point at (0, 5), at rest, gravity
(0, -10). -/
def pointBody : Entity :=
  { mobile := true, base_position := ⟨0, 0⟩, base_velocity := ⟨0, 0⟩,
    base_acceleration := ⟨0, -10⟩, valid_time := 0,
    shape := ⟨[⟨0, 5⟩], true⟩, restitution := 1/2 }

/-- A static floor: segment endpoints (-10, 0) and (10, 0). -/
def floorBody : Entity :=
  { mobile := false, base_position := ⟨0, 0⟩, base_velocity := ⟨0, 0⟩,
    base_acceleration := ⟨0, 0⟩, valid_time := 0,
    shape := ⟨[⟨-10, 0⟩, ⟨10, 0⟩], true⟩, restitution := 1 }

/-- A point body sitting at (0, 0), used for the degenerate
(EquationIdentity) collision input. -/
def degBody : Entity :=
  { mobile := true, base_position := ⟨0, 0⟩, base_velocity := ⟨1, 0⟩,
    base_acceleration := ⟨1, 0⟩, valid_time := 0,
    shape := ⟨[⟨0, 0⟩], true⟩, restitution := 1/2 }

/-- A static segment from (0, 0) to (1, 0) through the degenerate body's
point. -/
def degFloor : Entity :=
  { mobile := false, base_position := ⟨0, 0⟩, base_velocity := ⟨0, 0⟩,
    base_acceleration := ⟨0, 0⟩, valid_time := 0,
    shape := ⟨[⟨0, 0⟩, ⟨1, 0⟩], true⟩, restitution := 1 }

/-- A static shaped entity positioned at (1, 2) with a single local point
(0, 0). -/
def shapedProbe : Entity :=
  { mobile := false, base_position := ⟨1, 2⟩, base_velocity := ⟨0, 0⟩,
    base_acceleration := ⟨0, 0⟩, valid_time := 0,
    shape := ⟨[⟨0, 0⟩], true⟩, restitution := 1 }

/-- A mobile entity with all-zero bases stamped at time 0. -/
def moverProbe : Entity :=
  { mobile := true, base_position := ⟨0, 0⟩, base_velocity := ⟨0, 0⟩,
    base_acceleration := ⟨0, 0⟩, valid_time := 0,
    shape := ⟨[⟨0, 0⟩], true⟩, restitution := 1 }

/-- An unpaused game running at speed 2. -/
def gameUnpaused : Game :=
  { speed0 := 2, real_speed := none, game_time := 0, current_time := 0,
    next_frame_time := 0, game_events := [], real_events := [] }

/-- A paused game (speed saved as 1) with a pending game event at game
time 1000 and a frame extending to real time 1300. -/
def gamePaused : Game :=
  { speed0 := 0, real_speed := some 1, game_time := 300, current_time := 300,
    next_frame_time := 1300, game_events := [⟨1000, false⟩], real_events := [] }

/-- The paused game with an additional pending real-time event at real
time 500. -/
def gamePausedReal : Game :=
  { gamePaused with real_events := [⟨500, false⟩] }

/-- The candidate intersection the predictor keeps for the degenerate
body/floor pair: relative time 0, point 0 of degBody against line 0 of
degFloor. -/
def degIntersection : Intersection := Intersection.mkNew pr0 0 0 degBody degFloor 0

/-- The state the paused game reaches after one scheduler step with no
real event due: real time advances to the frame target while game time
advances by (frame delta) times the zero speed. -/
def gamePausedStepped : Game :=
  { gamePaused with
    game_time := gamePaused.game_time +
      (gamePaused.next_frame_time - gamePaused.current_time) * gamePaused.speed0,
    current_time := gamePaused.next_frame_time }

/-- A two-event store for exercising invalidate_intersections. -/
def storeProbe : List Intersection :=
  [Intersection.mkNew pr0 0 0 pointBody floorBody 1,
   Intersection.mkNew pr0 0 1 pointBody floorBody 3]

/-! Helper lemmas shared by several developments. -/

theorem Vector.eq_iff (v w : Vector) : v = w ↔ v.x = w.x ∧ v.y = w.y := by
  cases v; cases w; simp

theorem Vector.add_x (v w : Vector) : (v + w).x = v.x + w.x := rfl

theorem Vector.add_y (v w : Vector) : (v + w).y = v.y + w.y := rfl

theorem Vector.sub_x (v w : Vector) : (v - w).x = v.x - w.x := rfl

theorem Vector.sub_y (v w : Vector) : (v - w).y = v.y - w.y := rfl

theorem Vector.smul_x (c : ℚ) (v : Vector) : (c * v).x = v.x * c := rfl

theorem Vector.smul_y (c : ℚ) (v : Vector) : (c * v).y = v.y * c := rfl

theorem Vector.smulR_x (c : ℚ) (v : Vector) : (v * c).x = v.x * c := rfl

theorem Vector.smulR_y (c : ℚ) (v : Vector) : (v * c).y = v.y * c := rfl

theorem Position_delta_zero (p v a : Vector) : Position p v a 0 = p := by
  rw [Vector.eq_iff]
  constructor
  · simp [Position, Vector.add_x, Vector.smulR_x]
  · simp [Position, Vector.add_y, Vector.smulR_y]

theorem add_smul_zero (v a : Vector) : v + (0 : ℚ) * a = v := by
  rw [Vector.eq_iff]
  constructor
  · simp [Vector.add_x, Vector.smul_x]
  · simp [Vector.add_y, Vector.smul_y]

theorem EPSILON_pos : 0 < EPSILON := by norm_num [EPSILON]

theorem FloatEqual_zero_iff (x : ℚ) : FloatEqual x 0 = true ↔ |x| < EPSILON := by
  unfold FloatEqual
  have hmax : max |x| |(0 : ℚ)| = |x| := by
    simp [abs_nonneg]
  rw [hmax]
  by_cases h : |x| < EPSILON
  · rw [if_pos h]
    simp only [sub_zero, decide_eq_true_eq]
    constructor
    · intro _; exact h
    · intro _; exact abs_lt.mp h
  · rw [if_neg h]
    simp only [sub_zero, decide_eq_true_eq]
    constructor
    · intro hlt
      have hx : |x| < EPSILON * |x| := abs_lt.mpr hlt
      have hle : EPSILON * |x| ≤ 1 * |x| := by
        apply mul_le_mul_of_nonneg_right _ (abs_nonneg x)
        norm_num [EPSILON]
      rw [one_mul] at hle
      exact absurd (lt_of_lt_of_le hx hle) (lt_irrefl _)
    · intro hlt; exact absurd hlt h

theorem find_roots_a0b0 (c : ℚ) :
    find_roots 0 0 c =
      if c = 0 then .error .equationIdentity else .error .inequalityError := by
  by_cases hc : c = 0 <;> simp [find_roots, hc]

theorem find_roots_a0 (b c : ℚ) (hb : b ≠ 0) : find_roots 0 b c = .ok [-c / b] := by
  simp [find_roots, hb]

theorem find_roots_ok_of_ne (a b c : ℚ) (h : a ≠ 0 ∨ b ≠ 0) :
    ∃ l, find_roots a b c = .ok l ∧ l.length ≤ 2 := by
  by_cases ha : a = 0
  · rcases h with h | hb
    · exact absurd ha h
    · subst ha
      exact ⟨[-c / b], find_roots_a0 b c hb, by simp⟩
  · unfold find_roots
    rw [if_neg ha]
    by_cases hc : c = 0
    · by_cases hb : b = 0
      · exact ⟨[0], by simp [hc, hb], by simp⟩
      · have habs : ¬ |b| < 0 := not_lt.mpr (abs_nonneg b)
        by_cases hb0 : |b| = 0
        · exact ⟨[-b / (2 * a)], by simp [hc, hb, habs, hb0], by simp⟩
        · exact ⟨[-b / a, 0], by simp [hc, hb, habs, hb0], by simp⟩
    · by_cases hd : b * b - 4 * a * c < 0
      · exact ⟨[], by simp [hc, hd], by simp⟩
      · by_cases hd0 : b * b - 4 * a * c = 0
        · exact ⟨[-b / (2 * a)], by simp [hc, hd, hd0], by simp⟩
        · refine ⟨[(-b - copysign (Rat.sqrt (b * b - 4 * a * c)) b) / (2 * a),
            c / (a * ((-b - copysign (Rat.sqrt (b * b - 4 * a * c)) b) / (2 * a)))],
            by simp [hc, hd, hd0], by simp⟩

theorem find_roots_neg_disc (a b c : ℚ) (ha : a ≠ 0) (hd : b * b - 4 * a * c < 0) :
    find_roots a b c = .ok [] := by
  have hc : c ≠ 0 := by
    intro hc0
    rw [hc0, mul_zero, sub_zero] at hd
    exact absurd hd (not_lt.mpr (mul_self_nonneg b))
  unfold find_roots
  rw [if_neg ha]
  simp [hc, hd]

theorem find_roots_000 : find_roots 0 0 0 = .error .equationIdentity := rfl

theorem degFloor_line0 : pyIdxLine (degFloor.pos_shape pr0).lines 0 = ⟨⟨1, 0⟩, ⟨0, 0⟩⟩ := rfl

theorem degBody_point0 : pyIdx (degBody.pos_shape pr0).points ((0 : ℕ) : ℤ) = ⟨0, 0⟩ := rfl

theorem find_roots_zero_disc (a b c : ℚ) (ha : a ≠ 0) (hd : b * b - 4 * a * c = 0) :
    find_roots a b c = .ok [-b / (2 * a)] := by
  by_cases hc : c = 0
  · have hb : b = 0 := by
      rw [hc, mul_zero, sub_zero] at hd
      exact mul_self_eq_zero.mp hd
    unfold find_roots
    rw [if_neg ha]
    simp [hc, hb]
  · unfold find_roots
    rw [if_neg ha]
    simp [hc, hd, lt_irrefl]

/-! Claim theorems. -/

/-- C4: the claim says every line segment exposes a derived `normal`
attribute (the normalized perpendicular of its direction) and that the
intersection-resolution code can access it.  Class Line in
src/src/util/line.py defines no such attribute: its attribute table
contains only the names below, so `line.normal` (as evaluated by
`Intersection.normal` and `Intersection._resolve_entity` in
src/src/physics.py) raises AttributeError instead of producing a
vector. -/
theorem C4_line_normal_attribute_missing :
    Line.hasattr "normal" = false ∧
    Line.hasattr "direction" = true ∧ Line.hasattr "slope" = true := by
  refine ⟨?_, ?_, ?_⟩ <;> rfl

/-- C9 counterexample: setting the world's speed to 0 (and to -1) on an
unpaused game succeeds and stores the non-positive value; no
InvalidSpeedError is raised (the source's speed setter contains no
validation and no such exception class exists). -/
theorem C9_speed_zero_accepted_counterexample :
    (gameUnpaused.speedSet 0).speed0 = 0 ∧
    (gameUnpaused.speedSet (-1)).speed0 = -1 := by
  constructor <;> rfl

/-- C9 amended: the speed setter performs no validation; it totally
stores the requested value (into `_speed` when running, `_real_speed`
when paused) and preserves the paused flag. -/
theorem C9_speed_setter_stores_value (g : Game) (v : ℚ) :
    (g.speedSet v).paused = g.paused ∧
    (g.paused = false → (g.speedSet v).speed0 = v) ∧
    (g.paused = true → (g.speedSet v).real_speed = some v) := by
  unfold Game.speedSet Game.paused
  by_cases h : g.real_speed.isSome
  · simp [h]
  · simp [h]

/-- C9 amended, witness at a concrete unpaused game and v = 0. -/
theorem C9_speed_setter_stores_value_witness :
    (gameUnpaused.speedSet 0).speed0 = 0 :=
  (C9_speed_setter_stores_value gameUnpaused 0).2.1 rfl

/-- C2: the claim says `pos_shape` translates every local point by the
current position.  `Shape.offset` iterates `point += offset` over
immutable Vectors, which rebinds the loop variable and never changes the
list, so the positioned shape equals the untranslated local shape: here
an entity positioned at (1, 2) with local point (0, 0) yields positioned
point (0, 0), not (1, 2). -/
theorem C2_pos_shape_not_translated :
    (∀ (pr : Provider) (e : Entity), (e.pos_shape pr).points = e.shape.points) ∧
    (shapedProbe.pos_shape pr0).points = [Vector.mk 0 0] ∧
    shapedProbe.position pr0 = Vector.mk 1 2 ∧
    (shapedProbe.pos_shape pr0).points ≠ [Vector.mk 1 2] := by
  refine ⟨?_, rfl, rfl, ?_⟩
  · intro pr e
    show ((Shape.copy e.shape).offset (e.position pr)).points = e.shape.points
    unfold Shape.offset Shape.copy
    simp
  · rw [show (shapedProbe.pos_shape pr0).points = [Vector.mk 0 0] from rfl]
    simp [Vector.eq_iff]

/-- C6 counterexample: for a = 1, b = 0, c = 1/4000000000 the
discriminant is -1/1000000000, which is within EPSILON = 1e-8 of zero,
yet find_roots returns no roots rather than the single root
-b/(2a) = 0 the claim requires: the source compares the discriminant to
zero exactly, not up to EPSILON. -/
theorem C6_find_roots_epsilon_counterexample :
    find_roots 1 0 (1/4000000000) = .ok [] ∧
    |(0 : ℚ) * 0 - 4 * 1 * (1/4000000000)| < EPSILON ∧
    find_roots 1 0 (1/4000000000) ≠ .ok [-(0 : ℚ) / (2 * 1)] := by
  refine ⟨?_, by rw [abs_lt]; constructor <;> norm_num [EPSILON], ?_⟩
  · exact find_roots_neg_disc 1 0 (1/4000000000) (by norm_num) (by norm_num)
  · rw [find_roots_neg_disc 1 0 (1/4000000000) (by norm_num) (by norm_num)]
    simp

/-- C6 amended: find_roots raises EquationIdentity iff a = b = c = 0 and
InequalityError iff a = b = 0 and c ≠ 0; for a = 0, b ≠ 0 it returns the
single root -c/b; for a ≠ 0 it returns no roots when the discriminant is
(exactly) negative and the single root -b/(2a) when the discriminant is
(exactly) zero; and every successful result has at most two roots.  (The
claim's epsilon-tolerant discriminant comparisons are replaced by the
exact comparisons the source performs.) -/
theorem C6_find_roots_characterization (a b c : ℚ) :
    (find_roots a b c = .error .equationIdentity ↔ a = 0 ∧ b = 0 ∧ c = 0) ∧
    (find_roots a b c = .error .inequalityError ↔ a = 0 ∧ b = 0 ∧ c ≠ 0) ∧
    (a = 0 → b ≠ 0 → find_roots a b c = .ok [-c / b]) ∧
    (a ≠ 0 → b * b - 4 * a * c < 0 → find_roots a b c = .ok []) ∧
    (a ≠ 0 → b * b - 4 * a * c = 0 → find_roots a b c = .ok [-b / (2 * a)]) ∧
    (∀ l, find_roots a b c = .ok l → l.length ≤ 2) := by
  have hok : (a ≠ 0 ∨ b ≠ 0) → ∀ err, find_roots a b c ≠ .error err := by
    intro h err heq
    obtain ⟨l, hl, -⟩ := find_roots_ok_of_ne a b c h
    rw [hl] at heq
    exact Except.noConfusion heq
  refine ⟨?_, ?_, ?_, ?_, ?_, ?_⟩
  · constructor
    · intro h
      by_cases ha : a = 0
      · by_cases hb : b = 0
        · subst ha; subst hb
          rw [find_roots_a0b0 c] at h
          by_cases hc : c = 0
          · exact ⟨rfl, rfl, hc⟩
          · rw [if_neg hc] at h
            exact absurd (Except.error.inj h) (by simp)
        · exact absurd h (hok (Or.inr hb) _)
      · exact absurd h (hok (Or.inl ha) _)
    · rintro ⟨ha, hb, hc⟩
      subst ha; subst hb; subst hc
      rfl
  · constructor
    · intro h
      by_cases ha : a = 0
      · by_cases hb : b = 0
        · subst ha; subst hb
          rw [find_roots_a0b0 c] at h
          by_cases hc : c = 0
          · rw [if_pos hc] at h
            exact absurd (Except.error.inj h) (by simp)
          · exact ⟨rfl, rfl, hc⟩
        · exact absurd h (hok (Or.inr hb) _)
      · exact absurd h (hok (Or.inl ha) _)
    · rintro ⟨ha, hb, hc⟩
      subst ha; subst hb
      rw [find_roots_a0b0 c, if_neg hc]
  · intro ha hb
    subst ha
    exact find_roots_a0 b c hb
  · exact find_roots_neg_disc a b c
  · exact find_roots_zero_disc a b c
  · intro l hl
    by_cases ha : a = 0
    · by_cases hb : b = 0
      · subst ha; subst hb
        rw [find_roots_a0b0 c] at hl
        by_cases hc : c = 0
        · rw [if_pos hc] at hl; exact Except.noConfusion hl
        · rw [if_neg hc] at hl; exact Except.noConfusion hl
      · subst ha
        rw [find_roots_a0 b c hb] at hl
        rw [← Except.ok.inj hl]
        simp
    · obtain ⟨l2, hl2, hlen⟩ := find_roots_ok_of_ne a b c (Or.inl ha)
      rw [hl2] at hl
      rw [← Except.ok.inj hl]
      exact hlen

/-- C6 amended, witness: the characterization applied at concrete
coefficients, discharging each hypothesis. -/
theorem C6_find_roots_characterization_witness :
    find_roots 0 2 4 = .ok [-(4 : ℚ) / 2] ∧
    find_roots 1 1 1 = .ok [] ∧
    find_roots 1 2 1 = .ok [-(2 : ℚ) / (2 * 1)] ∧
    (find_roots 0 0 0 = .error .equationIdentity ↔
      (0 : ℚ) = 0 ∧ (0 : ℚ) = 0 ∧ (0 : ℚ) = 0) :=
  ⟨(C6_find_roots_characterization 0 2 4).2.2.1 rfl (by norm_num),
   (C6_find_roots_characterization 1 1 1).2.2.2.1 (by norm_num) (by norm_num),
   (C6_find_roots_characterization 1 2 1).2.2.2.2.1 (by norm_num) (by norm_num),
   (C6_find_roots_characterization 0 0 0).1⟩

/-- C5 counterexample: with acceleration (1, 0), velocity (1, 0), point
(0, 0) and the segment from (1, 0) to (0, 0), the quadratic degenerates
to 0 = 0 (an EquationIdentity failure of find_roots), and
ParabolaLineCollision produces one candidate intersection at relative
time 0 -- not "no crossing" as the claim states.  (The claim's two
treatments are swapped relative to the source; the source's unit test
test_parallel likewise expects the InequalityError case to yield no
candidates.) -/
theorem C5_equation_identity_counterexample :
    find_roots (1/2 * ((Vector.mk 1 0).cross ⟨0, 0⟩ - (Vector.mk 1 0).cross ⟨1, 0⟩))
        ((Vector.mk 1 0).cross ⟨0, 0⟩ - (Vector.mk 1 0).cross ⟨1, 0⟩)
        ((Vector.mk 0 0).cross ⟨0, 0⟩ - (Vector.mk 0 0).cross ⟨1, 0⟩ -
          (Vector.mk 1 0).cross ⟨0, 0⟩) = .error .equationIdentity ∧
    ParabolaLineCollision pr0 0 ⟨1, 0⟩ ⟨1, 0⟩ 0 degBody degFloor =
      [Intersection.mkNew pr0 0 0 degBody degFloor 0] := by
  constructor
  · norm_num [Vector.cross]
    exact find_roots_000
  · unfold ParabolaLineCollision
    rw [degFloor_line0, degBody_point0]
    norm_num [Vector.cross, Vector.eq_iff, find_roots_000]

/-- C5 amended: when the quadratic degenerates (with nonzero
acceleration, so that find_roots is actually consulted), an
EquationIdentity failure is treated as a degenerate crossing at relative
time 0 (one candidate) and an InequalityError failure as no crossing (no
candidates); both are caught inside ParabolaLineCollision, which always
returns a plain list. -/
theorem C5_degenerate_quadratic_handling (pr : Provider) (point_index : ℕ)
    (vel acc : Vector) (line_index : ℕ) (ent oth : Entity)
    (hacc : acc ≠ ⟨0, 0⟩) :
    (find_roots
        (1/2 * (acc.cross (pyIdxLine (oth.pos_shape pr).lines line_index).q -
          acc.cross (pyIdxLine (oth.pos_shape pr).lines line_index).p))
        (vel.cross (pyIdxLine (oth.pos_shape pr).lines line_index).q -
          vel.cross (pyIdxLine (oth.pos_shape pr).lines line_index).p)
        ((pyIdx (ent.pos_shape pr).points (point_index : ℤ)).cross
            (pyIdxLine (oth.pos_shape pr).lines line_index).q -
          (pyIdx (ent.pos_shape pr).points (point_index : ℤ)).cross
            (pyIdxLine (oth.pos_shape pr).lines line_index).p -
          (pyIdxLine (oth.pos_shape pr).lines line_index).p.cross
            (pyIdxLine (oth.pos_shape pr).lines line_index).q) =
        .error .equationIdentity →
      ParabolaLineCollision pr point_index vel acc line_index ent oth =
        [Intersection.mkNew pr point_index line_index ent oth 0]) ∧
    (find_roots
        (1/2 * (acc.cross (pyIdxLine (oth.pos_shape pr).lines line_index).q -
          acc.cross (pyIdxLine (oth.pos_shape pr).lines line_index).p))
        (vel.cross (pyIdxLine (oth.pos_shape pr).lines line_index).q -
          vel.cross (pyIdxLine (oth.pos_shape pr).lines line_index).p)
        ((pyIdx (ent.pos_shape pr).points (point_index : ℤ)).cross
            (pyIdxLine (oth.pos_shape pr).lines line_index).q -
          (pyIdx (ent.pos_shape pr).points (point_index : ℤ)).cross
            (pyIdxLine (oth.pos_shape pr).lines line_index).p -
          (pyIdxLine (oth.pos_shape pr).lines line_index).p.cross
            (pyIdxLine (oth.pos_shape pr).lines line_index).q) =
        .error .inequalityError →
      ParabolaLineCollision pr point_index vel acc line_index ent oth = []) := by
  constructor
  · intro h
    simp only [ParabolaLineCollision, if_neg hacc, h, List.map]
  · intro h
    simp only [ParabolaLineCollision, if_neg hacc, h, List.map]

theorem degBody_vel_diff :
    Entity.velocity pr0 degBody - Entity.velocity pr0 degFloor = ⟨1, 0⟩ := by
  rw [Vector.eq_iff]
  constructor <;>
    norm_num [Entity.velocity, degBody, degFloor, pr0, Vector.sub_x, Vector.sub_y,
      Vector.add_x, Vector.add_y, Vector.smul_x, Vector.smul_y]

theorem degBody_acc_diff :
    Entity.acceleration degBody - Entity.acceleration degFloor = ⟨1, 0⟩ := by
  rw [Vector.eq_iff]
  constructor <;>
    norm_num [Entity.acceleration, degBody, degFloor, Vector.sub_x, Vector.sub_y]

theorem degPLC_eval :
    ParabolaLineCollision pr0 0 ⟨1, 0⟩ ⟨1, 0⟩ 0 degBody degFloor = [degIntersection] := by
  unfold ParabolaLineCollision
  rw [degFloor_line0, degBody_point0]
  norm_num [Vector.cross, Vector.eq_iff, find_roots_000, degIntersection]

theorem degBody_point0z : pyIdx (degBody.pos_shape pr0).points (0 : ℤ) = ⟨0, 0⟩ := rfl

theorem degIntersection_line : degIntersection.line pr0 = ⟨⟨1, 0⟩, ⟨0, 0⟩⟩ := rfl

theorem degIntersection_pos : degIntersection.pos pr0 = ⟨0, 0⟩ := by
  rw [Vector.eq_iff]
  constructor <;>
    norm_num [Intersection.pos, degIntersection, Intersection.mkNew, Position,
      degBody_point0z, degBody_vel_diff, degBody_acc_diff, Vector.add_x, Vector.add_y,
      Vector.smulR_x, Vector.smulR_y, Vector.smul_x, Vector.smul_y,
      Vector.sub_x, Vector.sub_y]

theorem degSegment_contains_origin :
    (Line.mk ⟨1, 0⟩ ⟨0, 0⟩).containsPoint ⟨0, 0⟩ = true := by
  simp [Line.containsPoint, SegmentContainsPoint, Collinear, FloatEqual, Within,
    EPSILON, Vector.cross, Vector.sub_x, Vector.sub_y, abs, max_def]

theorem degWrapper_eval : parabola_line_collision_wrapper pr0 0
    (Entity.velocity pr0 degBody - Entity.velocity pr0 degFloor)
    (Entity.acceleration degBody - Entity.acceleration degFloor) 0 degBody degFloor
    = [degIntersection] := by
  unfold parabola_line_collision_wrapper ParabolaLineSegmentCollision
  rw [degBody_vel_diff, degBody_acc_diff, degPLC_eval]
  simp [List.filter, degIntersection_line, degIntersection_pos, degSegment_contains_origin]
  have hdel : decide (-EPSILON < degIntersection.del_time) = true :=
    decide_eq_true (by norm_num [EPSILON, degIntersection, Intersection.mkNew])
  simp [hdel]

theorem degIntersection_mem : degIntersection ∈ entity_intersections pr0 degBody degFloor := by
  simp only [entity_intersections]
  apply List.mem_flatten.mpr
  refine ⟨_, List.mem_append_left _ (List.mem_map.mpr ⟨(0, 0), by decide, rfl⟩), ?_⟩
  rw [degWrapper_eval]
  exact List.mem_singleton.mpr rfl

/-- C5 amended, witness: the degenerate-quadratic handling applied at
the concrete EquationIdentity input. -/
theorem C5_degenerate_quadratic_handling_witness :
    ParabolaLineCollision pr0 0 ⟨1, 0⟩ ⟨1, 0⟩ 0 degBody degFloor =
      [Intersection.mkNew pr0 0 0 degBody degFloor 0] :=
  (C5_degenerate_quadratic_handling pr0 0 ⟨1, 0⟩ ⟨1, 0⟩ 0 degBody degFloor
    (by norm_num [Vector.eq_iff])).1
    (by rw [degFloor_line0, degBody_point0]
        norm_num [Vector.cross]
        exact find_roots_000)

/-- C1: every intersection produced by the pairwise predictor
entity_intersections survives the ParabolaLineSegmentCollision filter,
i.e. its impact position r(t_r) (computed from the colliding point of
one entity's positioned shape, the relative velocity/acceleration, and
the root t_r) lies in the colliding segment of the other entity's
positioned shape per SegmentContainsPoint, and its absolute event time
equals the current game time plus the relative root. -/
theorem C1_kept_intersections_on_segment (pr : Provider) (ent oth : Entity)
    (i : Intersection) (hmem : i ∈ entity_intersections pr ent oth) :
    (i.line pr).containsPoint (i.pos pr) = true ∧
    i.time = pr.game_time + i.del_time := by
  simp only [entity_intersections] at hmem
  rw [List.mem_flatten] at hmem
  obtain ⟨l, hl, hil⟩ := hmem
  rw [List.mem_append] at hl
  have hex : ∃ pi v a li e o, l = parabola_line_collision_wrapper pr pi v a li e o := by
    rcases hl with hl | hl <;>
      · rw [List.mem_map] at hl
        obtain ⟨pl, -, rfl⟩ := hl
        exact ⟨_, _, _, _, _, _, rfl⟩
  obtain ⟨pi, v, a, li, e, o, rfl⟩ := hex
  unfold parabola_line_collision_wrapper ParabolaLineSegmentCollision at hil
  rw [List.mem_filter] at hil
  obtain ⟨hil, -⟩ := hil
  rw [List.mem_filter] at hil
  obtain ⟨hmap, hcont⟩ := hil
  refine ⟨hcont, ?_⟩
  simp only [ParabolaLineCollision] at hmap
  rw [List.mem_map] at hmap
  obtain ⟨t, -, rfl⟩ := hmap
  simp [Intersection.mkNew, add_comm]

/-- C1 witness: the degenerate body/floor pair produces a concrete kept
intersection; the theorem applied to it yields its on-segment position
and time decomposition. -/
theorem C1_kept_intersections_on_segment_witness :
    (degIntersection.line pr0).containsPoint (degIntersection.pos pr0) = true ∧
    degIntersection.time = pr0.game_time + degIntersection.del_time :=
  C1_kept_intersections_on_segment pr0 degBody degFloor degIntersection degIntersection_mem

/-- C3 counterexample: the acceleration setter does not rebase the
stored position to position_at(now) and does not stamp the validity
time.  A mobile entity with zero bases stamped at t_v = 0, observed at
game time 1: writing acceleration (2, 0) changes the effective position
at the current time from (0, 0) to (1, 0), and the validity stamp stays
0 ≠ 1 (a stale base). -/
theorem C3_acceleration_setter_counterexample :
    Entity.position pr1 (moverProbe.setAcceleration pr1 ⟨2, 0⟩) = Vector.mk 1 0 ∧
    Entity.position pr1 moverProbe = Vector.mk 0 0 ∧
    (moverProbe.setAcceleration pr1 ⟨2, 0⟩).valid_time ≠ pr1.game_time := by
  refine ⟨?_, ?_, ?_⟩
  · rw [Vector.eq_iff]
    constructor <;>
      norm_num [Entity.position, Entity.setAcceleration, moverProbe, pr1, Position,
        Vector.add_x, Vector.add_y, Vector.smulR_x, Vector.smulR_y]
  · rw [Vector.eq_iff]
    constructor <;>
      norm_num [Entity.position, moverProbe, pr1, Position,
        Vector.add_x, Vector.add_y, Vector.smulR_x, Vector.smulR_y]
  · norm_num [Entity.setAcceleration, moverProbe, pr1]

/-- C3 amended: the position and velocity setters rebase the stored
position to the current effective position and stamp the validity time
(so a position write makes position_at(now) the new value and a
velocity write preserves position_at(now) and makes velocity_at(now)
the new value); the acceleration setter, by contrast, overwrites the
stored acceleration only, leaving the bases and validity time exactly
as they were (so they can be stale). -/
theorem C3_setters_rebase_except_acceleration (pr : Provider) (e : Entity)
    (p v a : Vector) (hm : e.mobile = true) :
    (Entity.position pr (e.setPosition pr p) = p ∧
     (e.setPosition pr p).valid_time = pr.game_time) ∧
    (Entity.position pr (e.setVelocity pr v) = Entity.position pr e ∧
     Entity.velocity pr (e.setVelocity pr v) = v ∧
     (e.setVelocity pr v).valid_time = pr.game_time) ∧
    ((e.setAcceleration pr a).base_acceleration = a ∧
     (e.setAcceleration pr a).base_position = e.base_position ∧
     (e.setAcceleration pr a).base_velocity = e.base_velocity ∧
     (e.setAcceleration pr a).valid_time = e.valid_time) := by
  refine ⟨⟨?_, rfl⟩, ⟨?_, ?_, rfl⟩, rfl, rfl, rfl, rfl⟩
  · simp [Entity.setPosition, Entity.position, hm, sub_self, Position_delta_zero]
  · simp [Entity.setVelocity, Entity.setPosition, Entity.position, hm, sub_self,
      Position_delta_zero]
  · simp [Entity.setVelocity, Entity.setPosition, Entity.velocity, hm, sub_self,
      add_smul_zero]

/-- C3 amended, witness: the setter laws at a concrete mobile entity at
game time 1. -/
theorem C3_setters_rebase_except_acceleration_witness :
    Entity.position pr1 (moverProbe.setPosition pr1 ⟨3, 4⟩) = Vector.mk 3 4 ∧
    (moverProbe.setPosition pr1 ⟨3, 4⟩).valid_time = pr1.game_time :=
  (C3_setters_rebase_except_acceleration pr1 moverProbe ⟨3, 4⟩ ⟨5, 6⟩ ⟨7, 8⟩ rfl).1

theorem Vector.hmul_dot (v w : Vector) : (v * w : ℚ) = Vector.dot v w := rfl

theorem check_resting_core (v a b : ℚ) (hv : v ≤ 0) :
    ((if a ≠ 0 then decide (a < 0) && decide (2 * (v * b) / a < RESTING_THRESHOLD)
      else false) ||
     (FloatEqual a 0 && FloatEqual v 0)) = true ↔
      ((a < 0 ∧ 2 * |v| * b / |a| < 200) ∨ (|v| < EPSILON ∧ |a| < EPSILON)) := by
  simp only [RESTING_THRESHOLD, Bool.or_eq_true, Bool.and_eq_true, FloatEqual_zero_iff]
  by_cases ha : a = 0
  · rw [if_neg (not_not_intro ha)]
    simp only [Bool.false_eq_true, false_or]
    constructor
    · rintro ⟨h1, h2⟩
      exact Or.inr ⟨h2, h1⟩
    · rintro (⟨h1, -⟩ | ⟨h1, h2⟩)
      · exact absurd h1 (by rw [ha]; exact lt_irrefl 0)
      · exact ⟨h2, h1⟩
  · rw [if_pos ha]
    simp only [Bool.and_eq_true, decide_eq_true_eq]
    constructor
    · rintro (⟨h1, h2⟩ | ⟨h1, h2⟩)
      · refine Or.inl ⟨h1, ?_⟩
        rw [abs_of_nonpos hv, abs_of_neg h1]
        calc 2 * -v * b / -a = 2 * (v * b) / a := by ring
          _ < 200 := h2
      · exact Or.inr ⟨h2, h1⟩
    · rintro (⟨h1, h2⟩ | ⟨h1, h2⟩)
      · refine Or.inl ⟨h1, ?_⟩
        rw [abs_of_nonpos hv, abs_of_neg h1] at h2
        calc 2 * (v * b) / a = 2 * -v * b / -a := by ring
          _ < 200 := h2
      · exact Or.inr ⟨h2, h1⟩

/-- C7: with the impact normal chosen against the relative velocity
(v_n ≤ 0), check_resting_state returns true iff either the normal
relative acceleration is strictly negative and the predicted next-bounce
interval 2|v_n|e/|a_n| is strictly below the 200 ms RESTING_THRESHOLD,
or both normal components are within EPSILON of zero. -/
theorem C7_check_resting_state_iff (pr : Provider) (ent oth : Entity)
    (line_index : ℕ) (normal : Vector) (bounciness : ℚ)
    (hv : Vector.dot (ent.velocity pr - oth.velocity pr) normal ≤ 0) :
    (check_resting_state pr ent oth line_index normal bounciness = true ↔
      ((Vector.dot (ent.acceleration - oth.acceleration) normal < 0 ∧
        2 * |Vector.dot (ent.velocity pr - oth.velocity pr) normal| * bounciness /
          |Vector.dot (ent.acceleration - oth.acceleration) normal| < 200) ∨
       (|Vector.dot (ent.velocity pr - oth.velocity pr) normal| < EPSILON ∧
        |Vector.dot (ent.acceleration - oth.acceleration) normal| < EPSILON))) :=
  check_resting_core (Vector.dot (ent.velocity pr - oth.velocity pr) normal)
    (Vector.dot (ent.acceleration - oth.acceleration) normal) bounciness hv

/-- C7 witness: the characterization applied to the falling point body
above the floor with normal (0, 1) and combined restitution 1/4. -/
theorem C7_check_resting_state_iff_witness :
    check_resting_state pr0 pointBody floorBody 0 ⟨0, 1⟩ (1/4) = true ↔
      ((Vector.dot (pointBody.acceleration - floorBody.acceleration) ⟨0, 1⟩ < 0 ∧
        2 * |Vector.dot (pointBody.velocity pr0 - floorBody.velocity pr0) ⟨0, 1⟩| * (1/4) /
          |Vector.dot (pointBody.acceleration - floorBody.acceleration) ⟨0, 1⟩| < 200) ∨
       (|Vector.dot (pointBody.velocity pr0 - floorBody.velocity pr0) ⟨0, 1⟩| < EPSILON ∧
        |Vector.dot (pointBody.acceleration - floorBody.acceleration) ⟨0, 1⟩| < EPSILON)) :=
  C7_check_resting_state_iff pr0 pointBody floorBody 0 ⟨0, 1⟩ (1/4)
    (by norm_num [Entity.velocity, pointBody, floorBody, pr0, Vector.dot,
      Vector.sub_x, Vector.sub_y, Vector.add_x, Vector.add_y,
      Vector.smul_x, Vector.smul_y])

theorem flagLoop_length (refs : List ℕ) :
    ∀ (n : ℕ) (store : List Intersection), (flagLoop refs n store).length = store.length := by
  intro n store
  induction store generalizing n with
  | nil => rfl
  | cons i rest ih => simp [flagLoop, ih]

theorem flagLoop_getD (refs : List ℕ) :
    ∀ (store : List Intersection) (n j : ℕ), j < store.length →
      (flagLoop refs n store).getD j default =
        (if (n + j) ∈ refs then { store.getD j default with invalid := true }
         else store.getD j default) := by
  intro store
  induction store with
  | nil =>
    intro n j h
    simp at h
  | cons i rest ih =>
    intro n j h
    cases j with
    | zero => simp [flagLoop]
    | succ j =>
      have hj : j < rest.length := by simpa using h
      have := ih (n + 1) j hj
      have hidx : n + 1 + j = n + (j + 1) := by omega
      rw [hidx] at this
      simpa [flagLoop] using this

/-- C10: invalidate_intersections sets the invalid flag on every event
referenced by the entity's back-reference list, leaves every other
stored event untouched, removes nothing from the store (the flagged
events remain as tombstones for the scheduler's sweep), and leaves the
back-reference list empty. -/
theorem C10_invalidate_intersections_spec (store : List Intersection) (refs : List ℕ)
    (href : ∀ r ∈ refs, r < store.length) :
    (invalidate_intersections store refs).2 = [] ∧
    (invalidate_intersections store refs).1.length = store.length ∧
    (∀ r ∈ refs, ((invalidate_intersections store refs).1.getD r default).invalid = true) ∧
    (∀ j, j ∉ refs →
      (invalidate_intersections store refs).1.getD j default = store.getD j default) := by
  have h1 : (invalidate_intersections store refs).1 = flagLoop refs 0 store := rfl
  have h2 : (invalidate_intersections store refs).2 =
      refs.filter (fun idx => !((flagLoop refs 0 store).getD idx default).invalid) := rfl
  have hflag : ∀ r ∈ refs, ((flagLoop refs 0 store).getD r default).invalid = true := by
    intro r hr
    rw [flagLoop_getD refs store 0 r (href r hr)]
    rw [if_pos (by simpa using hr)]
  rw [h1, h2]
  refine ⟨?_, flagLoop_length refs 0 store, hflag, ?_⟩
  · apply List.filter_eq_nil_iff.mpr
    intro r hr
    simp only [hflag r hr, Bool.not_true]
    simp
  · intro j hj
    by_cases hlt : j < store.length
    · rw [flagLoop_getD refs store 0 j hlt, if_neg (by simpa using hj)]
    · have hge : store.length ≤ j := not_lt.mp hlt
      rw [List.getD_eq_default, List.getD_eq_default]
      · exact hge
      · rw [flagLoop_length refs 0 store]; exact hge

/-- C10 witness: the specification applied to a two-event store with the
first event back-referenced. -/
theorem C10_invalidate_intersections_spec_witness :
    (invalidate_intersections storeProbe [0]).2 = [] ∧
    ((invalidate_intersections storeProbe [0]).1.getD 0 default).invalid = true ∧
    (invalidate_intersections storeProbe [0]).1.getD 1 default = storeProbe.getD 1 default :=
  ⟨(C10_invalidate_intersections_spec storeProbe [0] (by decide)).1,
   (C10_invalidate_intersections_spec storeProbe [0] (by decide)).2.2.1 0 (by decide),
   (C10_invalidate_intersections_spec storeProbe [0] (by decide)).2.2.2 1 (by decide)⟩

theorem pause_roundtrip (g : Game) (h : g.real_speed = none) :
    (g.pausedSet true).pausedSet false = g := by
  obtain ⟨s0, rs, gt, ct, nft, ge, re⟩ := g
  simp only at h
  subst h
  simp [Game.pausedSet, Game.paused]

theorem gdt_speed0 (gt0 : XQ) (gtime fd : ℚ) :
    ((ZeroDivideX (gt0.subQ gtime).abs 0).gtQ fd ||
      (ZeroDivideX (gt0.subQ gtime).abs 0).isNan) = true := by
  cases gt0 with
  | fin q =>
    simp only [XQ.subQ, XQ.abs, ZeroDivideX]
    by_cases h0 : |q - gtime| = 0
    · simp [h0, XQ.isNan]
    · have hpos : 0 < |q - gtime| := lt_of_le_of_ne (abs_nonneg _) (Ne.symm h0)
      simp [h0, hpos, XQ.gtQ]
  | inf => simp [XQ.subQ, XQ.abs, ZeroDivideX, XQ.gtQ]
  | ninf => simp [XQ.subQ, XQ.abs, ZeroDivideX, XQ.gtQ]
  | nan => simp [XQ.subQ, XQ.abs, ZeroDivideX, XQ.isNan]

theorem next_event_speed0 (g : Game) (fd : ℚ) (hs : g.speed0 = 0) :
    g.next_event fd =
      (let gt0 : XQ := match g.game_events.head? with
        | some e => .fin e.time
        | none => .inf
       let rt0 : XQ := match g.real_events.head? with
        | some e => .fin e.time
        | none => .inf
       if gt0.ltQ (g.game_time - EPSILON) then .error "Event must occur at a future time"
       else if rt0.ltQ g.current_time then .error "Event must occur at a future time"
       else if (rt0.subQ g.current_time).gtQ fd then .ok none
       else match g.real_events.head? with
            | some e => .ok (some (.real e))
            | none => .error "dummy event selected") := by
  unfold Game.next_event
  rw [hs]
  rcases hge : g.game_events.head? with _ | e1 <;>
    simp only [gdt_speed0, if_true, eq_self_iff_true]

theorem next_event_paused_not_game (g : Game) (fd : ℚ) (hs : g.speed0 = 0) :
    ∀ ev, g.next_event fd ≠ .ok (some (.game ev)) := by
  intro ev h
  rw [next_event_speed0 g fd hs] at h
  simp only at h
  split_ifs at h <;> try exact Except.noConfusion h
  · simp at h
  · rcases hre : g.real_events.head? with _ | e2 <;> rw [hre] at h <;> simp at h

theorem next_event_paused_real_sound (g : Game) (fd : ℚ) (e : REvent) (hs : g.speed0 = 0)
    (h : g.next_event fd = .ok (some (.real e))) :
    g.real_events.head? = some e ∧ g.current_time ≤ e.time := by
  rw [next_event_speed0 g fd hs] at h
  simp only at h
  split_ifs at h with h1 h2 h3 <;> try exact Except.noConfusion h
  · simp at h
  · rcases hre : g.real_events.head? with _ | e2 <;> rw [hre] at h
    · exact Except.noConfusion h
    · have he : e2 = e := by simpa using h
      subst he
      refine ⟨rfl, ?_⟩
      rw [hre] at h2
      simpa [XQ.ltQ, not_lt] using h2

theorem next_event_paused_real_fires (g : Game) (fd : ℚ) (e : REvent) (hs : g.speed0 = 0)
    (hre : g.real_events.head? = some e)
    (hg : ∀ ge, g.game_events.head? = some ge → g.game_time - EPSILON ≤ ge.time)
    (h1 : g.current_time ≤ e.time) (h2 : e.time - g.current_time ≤ fd) :
    g.next_event fd = .ok (some (.real e)) := by
  rw [next_event_speed0 g fd hs]
  simp only [hre]
  rw [if_neg ?hgv, if_neg ?hrv, if_neg ?hrd]
  case hgv =>
    rcases hge : g.game_events.head? with _ | ge
    · simp [XQ.ltQ]
    · have := hg ge hge
      simp only [XQ.ltQ, decide_eq_true_eq]
      exact not_lt.mpr this
  case hrv => simpa [XQ.ltQ, not_lt] using h1
  case hrd => simpa [XQ.subQ, XQ.gtQ, not_lt] using h2

theorem calcStep_paused (hG : GEvent → Game → Game) (hR : REvent → Game → Game)
    (upd : Game → Game) (g : Game) (hs : g.speed0 = 0)
    (hRp : ∀ ev h, (hR ev h).game_time = h.game_time ∧
      (hR ev h).game_events = h.game_events ∧ (hR ev h).current_time = h.current_time)
    (hUp : ∀ h, (upd h).game_time = h.game_time ∧
      (upd h).game_events = h.game_events ∧ (upd h).current_time = h.current_time)
    (g2 : Game) (hstep : Game.calcStep hG hR upd g = .ok g2) :
    g2.game_time = g.game_time ∧ g2.game_events = g.game_events ∧
      g.current_time ≤ g2.current_time := by
  unfold Game.calcStep at hstep
  by_cases hct : g.current_time < g.next_frame_time
  · rw [if_pos hct] at hstep
    rcases hne : g.next_event (g.next_frame_time - g.current_time) with err | oev
    · rw [hne] at hstep
      exact Except.noConfusion hstep
    · rcases oev with _ | ev
      · rw [hne] at hstep
        simp only [] at hstep
        have hg2 := Except.ok.inj hstep
        subst hg2
        obtain ⟨hu1, hu2, hu3⟩ := hUp { g with
          game_time := g.game_time + (g.next_frame_time - g.current_time) * g.speed0,
          current_time := g.next_frame_time }
        refine ⟨?_, ?_, ?_⟩
        · rw [hu1]; simp [hs]
        · rw [hu2]
        · rw [hu3]; exact le_of_lt hct
      · rcases ev with ev | ev
        · exact absurd hne (next_event_paused_not_game g _ hs ev)
        · rw [hne] at hstep
          simp only [] at hstep
          obtain ⟨hhead, hle⟩ := next_event_paused_real_sound g _ ev hs hne
          set g1 := { g with
            game_time := g.game_time + (ev.time - g.current_time) * g.speed0,
            current_time := g.current_time + (ev.time - g.current_time) } with hg1
          set g2p := hR ev g1 with hg2p
          by_cases hany : g2p.real_events.any (fun x => x.time = ev.time)
          · rw [if_pos hany] at hstep
            have hg2 := Except.ok.inj hstep
            subst hg2
            obtain ⟨hu1, hu2, hu3⟩ := hUp { g2p with
              real_events := g2p.real_events.eraseP (fun x => decide (x.time = ev.time)) }
            obtain ⟨hr1, hr2, hr3⟩ := hRp ev g1
            refine ⟨?_, ?_, ?_⟩
            · rw [hu1]
              show g2p.game_time = g.game_time
              rw [hr1]
              simp [hg1, hs]
            · rw [hu2]
              show g2p.game_events = g.game_events
              rw [hr2]
            · rw [hu3]
              show g.current_time ≤ g2p.current_time
              rw [hr3]
              show g.current_time ≤ g.current_time + (ev.time - g.current_time)
              linarith
          · rw [if_neg hany] at hstep
            exact Except.noConfusion hstep
  · rw [if_neg hct] at hstep
    have hg2 := Except.ok.inj hstep
    subst hg2
    exact ⟨rfl, rfl, le_refl _⟩

theorem projRealTime_paused (g : Game) (e : GEvent) (hs : g.speed0 = 0)
    (ht : g.game_time < e.time) : g.projRealTime e = XQ.inf := by
  unfold Game.projRealTime
  rw [hs]
  have h1 : e.time - g.game_time ≠ 0 := by linarith
  have h2 : e.time - g.game_time > 0 := by linarith
  simp [ZeroDivideX, XQ.addQ, h1, h2]

theorem gamePaused_calcStep :
    Game.calcStep (fun _ h => h) (fun _ h => h) (fun h => h) gamePaused =
      .ok gamePausedStepped := by
  have hne : gamePaused.next_event (gamePaused.next_frame_time - gamePaused.current_time) =
      .ok none := by
    rw [next_event_speed0 _ _ rfl]
    simp only [show gamePaused.game_events.head? = some ⟨1000, false⟩ from rfl,
      show gamePaused.real_events.head? = none from rfl]
    rw [if_neg ?h1, if_neg ?h2, if_pos ?h3]
    case h1 =>
      simp only [XQ.ltQ, decide_eq_true_eq]
      norm_num [gamePaused, EPSILON]
    case h2 => simp [XQ.ltQ]
    case h3 => simp [XQ.subQ, XQ.gtQ]
  unfold Game.calcStep
  rw [if_pos (by norm_num [gamePaused]), hne]
  rfl

/-- C8: (i) pausing then unpausing an unpaused game restores the whole
scheduler state, and with it the speed, exactly; (ii) while paused
(`_speed = 0` with the running speed saved), any scheduler step that
returns successfully leaves the game time and the game-event queue
untouched while real time does not decrease, for any handlers and input
poll that do not themselves write those fields (no source handler does);
so a collision predicted before the pause keeps its game time and fires
at it after unpausing; (iii) a due real-time event is still selected by
_next_event during the pause; (iv) a strictly-future game-time event has
projected real time +infinity while paused. -/
theorem C8_pause_semantics :
    (∀ g : Game, g.real_speed = none → (g.pausedSet true).pausedSet false = g) ∧
    (∀ (hG : GEvent → Game → Game) (hR : REvent → Game → Game) (upd : Game → Game)
       (g : Game), g.speed0 = 0 →
       (∀ ev h, (hR ev h).game_time = h.game_time ∧ (hR ev h).game_events = h.game_events ∧
         (hR ev h).current_time = h.current_time) →
       (∀ h, (upd h).game_time = h.game_time ∧ (upd h).game_events = h.game_events ∧
         (upd h).current_time = h.current_time) →
       ∀ g2, Game.calcStep hG hR upd g = .ok g2 →
         g2.game_time = g.game_time ∧ g2.game_events = g.game_events ∧
           g.current_time ≤ g2.current_time) ∧
    (∀ (g : Game) (fd : ℚ) (e : REvent), g.speed0 = 0 → g.real_events.head? = some e →
       (∀ ge, g.game_events.head? = some ge → g.game_time - EPSILON ≤ ge.time) →
       g.current_time ≤ e.time → e.time - g.current_time ≤ fd →
       g.next_event fd = .ok (some (.real e))) ∧
    (∀ (g : Game) (e : GEvent), g.speed0 = 0 → g.game_time < e.time →
       g.projRealTime e = XQ.inf) :=
  ⟨pause_roundtrip,
   fun hG hR upd g hs hRp hUp g2 hstep => calcStep_paused hG hR upd g hs hRp hUp g2 hstep,
   fun g fd e hs hre hg h1 h2 => next_event_paused_real_fires g fd e hs hre hg h1 h2,
   projRealTime_paused⟩

/-- C8 witness: the four pause properties at concrete games -- the
unpaused speed-2 game round-trips exactly; one step of the paused game
advances real time to 1300 without touching game time or the game
queue; a real event at 500 still fires while paused; the pending game
event at 1000 projects to real time +infinity. -/
theorem C8_pause_semantics_witness :
    ((gameUnpaused.pausedSet true).pausedSet false = gameUnpaused) ∧
    (gamePausedStepped.game_time = gamePaused.game_time ∧
     gamePausedStepped.game_events = gamePaused.game_events ∧
     gamePaused.current_time ≤ gamePausedStepped.current_time) ∧
    (gamePausedReal.next_event 1000 = .ok (some (.real ⟨500, false⟩))) ∧
    (gamePaused.projRealTime ⟨1000, false⟩ = XQ.inf) :=
  ⟨C8_pause_semantics.1 gameUnpaused rfl,
   C8_pause_semantics.2.1 (fun _ h => h) (fun _ h => h) (fun h => h) gamePaused rfl
     (fun _ _ => ⟨rfl, rfl, rfl⟩) (fun _ => ⟨rfl, rfl, rfl⟩)
     gamePausedStepped gamePaused_calcStep,
   C8_pause_semantics.2.2.1 gamePausedReal 1000 ⟨500, false⟩ rfl rfl
     (fun ge hge => by
       have hge2 : ({ time := 1000, invalid := false } : GEvent) = ge := by
         simpa [gamePausedReal, gamePaused] using hge
       rw [← hge2]
       norm_num [gamePausedReal, gamePaused, EPSILON])
     (by norm_num [gamePausedReal, gamePaused])
     (by norm_num [gamePausedReal, gamePaused]),
   C8_pause_semantics.2.2.2 gamePaused ⟨1000, false⟩ rfl (by norm_num [gamePaused])⟩

end APhys
